import Mathlib

/-!
Verification of the cosmwasm-simulate simulation engine and mocked chain
backend, shallowly embedded from the Rust sources:

* src/contract_vm/mock.rs     — the gas-metered key/value store (MockStorage)
  and the gas-gated mock querier (MockQuerier);
* src/contract_vm/engine.rs   — the contract instance lifecycle calls
  (instantiate_raw / execute_raw / query_raw / call) and the global
  BLOCK_HEIGHT counter;
* src/contract_vm/querier.rs  — the bank query router (BankQuerier);
* src/main.rs                 — the recursive dispatcher
  (execute_contract_response), the cross-contract query handler (query_wasm)
  and the account resolution of call_engine / prepare_command_line.

Bytes (Rust Vec-of-u8 / Binary) are modelled as List Nat, machine counters as
Nat (no arithmetic in the verified paths ever nears overflow of u64/u32), and
the external wasmer execution backend — out of scope for the repository — as
an oracle argument supplying the result and the storage effect of each
contract entry-point invocation.
-/

namespace CwSimulate

/-- A byte string (Rust `Vec<u8>`); each element is a byte value. -/
abbrev Bytes := List Nat

/-- Lexicographic strict order on byte strings, as Rust derives `Ord` for
`Vec<u8>`: elementwise, with a strict prefix smaller than the longer list. -/
def bytesLt : Bytes → Bytes → Bool
  | [], [] => false
  | [], _ :: _ => true
  | _ :: _, [] => false
  | a :: as, b :: bs => if a < b then true else if b < a then false else bytesLt as bs

/-- A key/value pair, `cosmwasm_std::Pair`. -/
abbrev Pair := Bytes × Bytes

/-- Backend errors surfaced by the store and querier
(`cosmwasm_vm::BackendError`); only the constructors the embedded code
produces are represented. -/
inductive BackendError where
  | iteratorDoesNotExist (id : Nat)
  | outOfGas
  deriving DecidableEq, Repr

/-- mock.rs `Iter`: the snapshot captured by `scan` plus a cursor. -/
structure Iter where
  data : List Pair
  position : Nat
  deriving Repr

/-- mock.rs `MockStorage`: an ordered map of byte keys to byte values
(`BTreeMap`, modelled as an association list kept sorted by `bytesLt`) plus
the table of open iterators (`HashMap<u32, Iter>`, modelled as an association
list in insertion order). -/
structure MockStorage where
  data : List Pair
  iterators : List (Nat × Iter)
  deriving Repr

/-- `MockStorage::new` / `MockStorage::default`. -/
def MockStorage.new : MockStorage := ⟨[], []⟩

/-- `BTreeMap::get`. -/
def btreeGet (m : List Pair) (key : Bytes) : Option Bytes :=
  (m.find? (fun p => p.1 == key)).map Prod.snd

/-- `BTreeMap::insert`, keeping the list sorted by key and replacing an
existing binding. -/
def btreeInsert (m : List Pair) (key value : Bytes) : List Pair :=
  match m with
  | [] => [(key, value)]
  | (k, v) :: rest =>
    if bytesLt key k then (key, value) :: (k, v) :: rest
    else if bytesLt k key then (k, v) :: btreeInsert rest key value
    else (key, value) :: rest

/-- `BTreeMap::remove`. -/
def btreeRemove (m : List Pair) (key : Bytes) : List Pair :=
  match m with
  | [] => []
  | (k, v) :: rest => if k == key then rest else (k, v) :: btreeRemove rest key

/-- `HashMap::get` on the iterator table. -/
def hmGet (m : List (Nat × Iter)) (id : Nat) : Option Iter :=
  (m.find? (fun p => p.1 == id)).map Prod.snd

/-- `HashMap::insert` on the iterator table: replace the binding if the key
is present, append it otherwise. -/
def hmInsert (m : List (Nat × Iter)) (id : Nat) (it : Iter) : List (Nat × Iter) :=
  match m with
  | [] => [(id, it)]
  | (k, v) :: rest => if k == id then (id, it) :: rest else (k, v) :: hmInsert rest id it

/-- Gas constants from mock.rs. -/
def GAS_COST_LAST_ITERATION : Nat := 37

def GAS_COST_RANGE : Nat := 11

/-- mock.rs `Storage::get` for `MockStorage`: result, gas cost, new store. -/
def MockStorage.get (s : MockStorage) (key : Bytes) :
    (Except BackendError (Option Bytes)) × Nat × MockStorage :=
  (Except.ok (btreeGet s.data key), key.length, s)

/-- mock.rs `Storage::set`: inserts the pair, reports gas proportional to
key+value length.  (The watcher notification has no effect on the store.) -/
def MockStorage.set (s : MockStorage) (key value : Bytes) :
    (Except BackendError Unit) × Nat × MockStorage :=
  (Except.ok (), key.length + value.length, { s with data := btreeInsert s.data key value })

/-- mock.rs `Storage::remove`. -/
def MockStorage.remove (s : MockStorage) (key : Bytes) :
    (Except BackendError Unit) × Nat × MockStorage :=
  (Except.ok (), key.length, { s with data := btreeRemove s.data key })

/-- Membership test of a key in the range `[start, end)` built by mock.rs
`range_bounds`: a `None` bound is unbounded, `start` is inclusive and `end_`
is exclusive. -/
def inRange (start end_ : Option Bytes) (k : Bytes) : Bool :=
  (match start with
   | none => true
   | some s => !bytesLt k s) &&
  (match end_ with
   | none => true
   | some e => bytesLt k e)

/-- mock.rs `Storage::scan`: snapshots the matching entries (ascending key
order from the `BTreeMap`, reversed when descending), special-casing an
inverted bounded range `start > end` to an empty snapshot, and registers the
snapshot under the fresh id `iterators.len() + 1`. -/
def MockStorage.scan (s : MockStorage) (start end_ : Option Bytes) (ascending : Bool) :
    (Except BackendError Nat) × Nat × MockStorage :=
  let values : List Pair :=
    match start, end_ with
    | some st, some en =>
      if bytesLt en st then []
      else
        let asc := s.data.filter (fun p => inRange start end_ p.1)
        if ascending then asc else asc.reverse
    | _, _ =>
      let asc := s.data.filter (fun p => inRange start end_ p.1)
      if ascending then asc else asc.reverse
  let last_id := s.iterators.length
  let new_id := last_id + 1
  (Except.ok new_id, GAS_COST_RANGE,
    { s with iterators := hmInsert s.iterators new_id ⟨values, 0⟩ })

/-- mock.rs `Storage::next`: an unknown id is an `IteratorNotFound` error;
otherwise the cursor yields the next snapshot element (gas proportional to
its size) or, once exhausted, `none` at the flat last-iteration cost. -/
def MockStorage.next (s : MockStorage) (iterator_id : Nat) :
    (Except BackendError (Option Pair)) × Nat × MockStorage :=
  match hmGet s.iterators iterator_id with
  | none => (Except.error (BackendError.iteratorDoesNotExist iterator_id), 0, s)
  | some it =>
    if h : it.position < it.data.length then
      let item := it.data.get ⟨it.position, h⟩
      (Except.ok (some item), item.1.length + item.2.length,
        { s with iterators := hmInsert s.iterators iterator_id ⟨it.data, it.position + 1⟩ })
    else
      (Except.ok none, GAS_COST_LAST_ITERATION, s)

/-- One operation of the store's public interface, for reasoning about
whole operation sequences. -/
inductive StoreOp where
  | opGet (key : Bytes)
  | opSet (key value : Bytes)
  | opRemove (key : Bytes)
  | opScan (start end_ : Option Bytes) (ascending : Bool)
  | opNext (id : Nat)

/-- Run a sequence of store operations from a given store, collecting the
iterator ids returned by the `scan` calls, in the order the scans were
made. -/
def runOps : MockStorage → List StoreOp → MockStorage × List Nat
  | s, [] => (s, [])
  | s, op :: rest =>
    match op with
    | .opGet key => runOps (s.get key).2.2 rest
    | .opSet key value => runOps (s.set key value).2.2 rest
    | .opRemove key => runOps (s.remove key).2.2 rest
    | .opScan start end_ asc =>
      let r := s.scan start end_ asc
      let (s', ids) := runOps r.2.2 rest
      match r.1 with
      | .ok id => (s', id :: ids)
      | .error _ => (s', ids)
    | .opNext id => runOps (s.next id).2.2 rest

/-! ### Iterator-table lemmas (mock.rs `scan` / `next`) -/

/-- All iterator ids in the table are bounded by the table's size.  This is
the shape the table keeps under the store's own operations (ids are handed
out as `len + 1`). -/
def itersBounded (s : MockStorage) : Prop :=
  ∀ k ∈ s.iterators.map Prod.fst, k ≤ s.iterators.length

lemma hmGet_hmInsert_self (m : List (Nat × Iter)) (id : Nat) (it : Iter) :
    hmGet (hmInsert m id it) id = some it := by
  induction m with
  | nil => simp [hmInsert, hmGet, List.find?]
  | cons p rest ih =>
    by_cases h : p.1 = id
    · simp [hmInsert, hmGet, List.find?, h]
    · simpa [hmInsert, hmGet, List.find?, h] using ih

lemma mem_keys_of_hmGet_some {m : List (Nat × Iter)} {id : Nat} {it : Iter}
    (h : hmGet m id = some it) : id ∈ m.map Prod.fst := by
  induction m with
  | nil => simp [hmGet, List.find?] at h
  | cons p rest ih =>
    by_cases hp : p.1 = id
    · simp [hp]
    · have hbe : (p.1 == id) = false := beq_eq_false_iff_ne.mpr hp
      have h' : hmGet rest id = some it := by
        simpa [hmGet, List.find?, hbe] using h
      rw [List.map_cons, List.mem_cons]
      exact Or.inr (ih h')

lemma hmInsert_keys_of_mem {m : List (Nat × Iter)} {id : Nat} (it : Iter)
    (h : id ∈ m.map Prod.fst) :
    (hmInsert m id it).map Prod.fst = m.map Prod.fst := by
  induction m with
  | nil => simp at h
  | cons p rest ih =>
    by_cases hp : p.1 = id
    · simp [hmInsert, hp]
    · have hrest : id ∈ rest.map Prod.fst := by
        rw [List.map_cons, List.mem_cons] at h
        rcases h with h1 | h1
        · exact absurd h1.symm hp
        · exact h1
      simp [hmInsert, hp, ih hrest]

lemma hmInsert_keys_of_not_mem {m : List (Nat × Iter)} {id : Nat} (it : Iter)
    (h : id ∉ m.map Prod.fst) :
    (hmInsert m id it).map Prod.fst = m.map Prod.fst ++ [id] := by
  induction m with
  | nil => simp [hmInsert]
  | cons p rest ih =>
    have hp : p.1 ≠ id := by
      intro he
      exact h (by simp [he])
    have hrest : id ∉ rest.map Prod.fst := by
      intro hm
      exact h (by simp [hm])
    simp [hmInsert, hp, ih hrest]

/-- `scan` always hands out the fresh id `len + 1`, appends it to the table,
and preserves the boundedness shape. -/
lemma scan_iterators (s : MockStorage) (hb : itersBounded s)
    (start end_ : Option Bytes) (asc : Bool) :
    (s.scan start end_ asc).1 = Except.ok (s.iterators.length + 1) ∧
    (s.scan start end_ asc).2.2.iterators.map Prod.fst
      = s.iterators.map Prod.fst ++ [s.iterators.length + 1] ∧
    itersBounded (s.scan start end_ asc).2.2 := by
  have hfresh : s.iterators.length + 1 ∉ s.iterators.map Prod.fst := by
    intro hmem
    exact absurd (hb _ hmem) (by omega)
  have hkeys :
      (s.scan start end_ asc).2.2.iterators.map Prod.fst
        = s.iterators.map Prod.fst ++ [s.iterators.length + 1] := by
    simpa [MockStorage.scan] using
      hmInsert_keys_of_not_mem _ hfresh
  refine ⟨rfl, hkeys, ?_⟩
  intro k hk
  have hlen : (s.scan start end_ asc).2.2.iterators.length = s.iterators.length + 1 := by
    have := congrArg List.length hkeys
    simpa using this
  rw [hlen]
  rw [hkeys] at hk
  rcases List.mem_append.mp hk with h1 | h1
  · exact Nat.le_succ_of_le (hb _ h1)
  · simp at h1
    omega

/-- `next` never changes the set (or order) of registered iterator ids. -/
lemma next_iterators_keys (s : MockStorage) (id : Nat) :
    (s.next id).2.2.iterators.map Prod.fst = s.iterators.map Prod.fst := by
  unfold MockStorage.next
  cases hg : hmGet s.iterators id with
  | none => simp
  | some it =>
    by_cases h : it.position < it.data.length
    · simp only [h, dif_pos]
      exact hmInsert_keys_of_mem _ (mem_keys_of_hmGet_some hg)
    · simp [h]

/-- Core induction for C5: starting from a store whose iterator ids are
bounded by the table size, every id returned by a `scan` in an operation
sequence exceeds the starting table size, and the returned ids are strictly
increasing. -/
lemma runOps_scan_ids (ops : List StoreOp) :
    ∀ s : MockStorage, itersBounded s →
      (∀ i ∈ (runOps s ops).2, s.iterators.length < i) ∧
      List.Pairwise (· < ·) (runOps s ops).2 := by
  induction ops with
  | nil =>
    intro s _
    simp [runOps]
  | cons op rest ih =>
    intro s hb
    cases op with
    | opGet key =>
      simpa [runOps, MockStorage.get] using ih s hb
    | opSet key value =>
      have hb' : itersBounded (s.set key value).2.2 := by
        simpa [MockStorage.set, itersBounded] using hb
      have := ih _ hb'
      simpa [runOps, MockStorage.set, itersBounded] using this
    | opRemove key =>
      have hb' : itersBounded (s.remove key).2.2 := by
        simpa [MockStorage.remove, itersBounded] using hb
      have := ih _ hb'
      simpa [runOps, MockStorage.remove, itersBounded] using this
    | opNext id =>
      have hkeys := next_iterators_keys s id
      have hlen : (s.next id).2.2.iterators.length = s.iterators.length := by
        have := congrArg List.length hkeys
        simpa using this
      have hb' : itersBounded (s.next id).2.2 := by
        intro k hk
        rw [hlen]
        exact hb _ (hkeys ▸ hk)
      have := ih _ hb'
      rw [hlen] at this
      simpa [runOps] using this
    | opScan start end_ asc =>
      obtain ⟨hres, hkeys, hb'⟩ := scan_iterators s hb start end_ asc
      have hlen : (s.scan start end_ asc).2.2.iterators.length = s.iterators.length + 1 := by
        have := congrArg List.length hkeys
        simpa using this
      obtain ⟨hgt, hpw⟩ := ih _ hb'
      rw [hlen] at hgt
      constructor
      · intro i hi
        simp only [runOps, hres] at hi
        rcases (by simpa using hi) with h1 | h1
        · omega
        · have := hgt _ h1
          omega
      · simp only [runOps, hres]
        refine List.Pairwise.cons ?_ hpw
        intro i hi
        have := hgt _ hi
        omega

/-- C5: over the lifetime of one store (starting empty), the iterator ids
returned by successive `scan` calls in any sequence of store operations are
strictly increasing in the order the scans were made, hence pairwise
distinct. -/
theorem scan_ids_unique_and_increasing (ops : List StoreOp) :
    List.Pairwise (· < ·) (runOps MockStorage.new ops).2 ∧
    List.Pairwise (· ≠ ·) (runOps MockStorage.new ops).2 := by
  have hb : itersBounded MockStorage.new := by
    intro k hk
    simp [MockStorage.new] at hk
  have h := (runOps_scan_ids ops MockStorage.new hb).2
  exact ⟨h, h.imp (fun {a b} hlt => Nat.ne_of_lt hlt)⟩

/-- Every `next` in a row on the given iterator returns `Ok(none)`. -/
def nextsAllNone : MockStorage → Nat → Nat → Prop
  | _, _, 0 => True
  | s, id, n + 1 => (s.next id).1 = Except.ok none ∧ nextsAllNone (s.next id).2.2 id n

lemma next_of_empty_iter {s : MockStorage} {id : Nat} {pos : Nat}
    (h : hmGet s.iterators id = some ⟨[], pos⟩) :
    (s.next id).1 = Except.ok none ∧ (s.next id).2.2 = s := by
  unfold MockStorage.next
  rw [h]
  simp

lemma nextsAllNone_of_empty_iter {s : MockStorage} {id : Nat} {pos : Nat}
    (h : hmGet s.iterators id = some ⟨[], pos⟩) : ∀ n, nextsAllNone s id n := by
  intro n
  induction n with
  | zero => trivial
  | succ k ihk =>
    obtain ⟨h1, h2⟩ := next_of_empty_iter h
    exact ⟨h1, by rw [h2]; exact ihk⟩

/-- C6: for every store state and inverted bounded range (`start > end`),
`scan` succeeds with the fresh id, the registered iterator holds zero
elements, and every subsequent `next` on that iterator returns `Ok(none)`. -/
theorem scan_inverted_range_yields_empty_iterator (s : MockStorage)
    (start end_ : Bytes) (asc : Bool) (h : bytesLt end_ start = true) :
    (s.scan (some start) (some end_) asc).1 = Except.ok (s.iterators.length + 1) ∧
    hmGet (s.scan (some start) (some end_) asc).2.2.iterators (s.iterators.length + 1)
      = some ⟨[], 0⟩ ∧
    ∀ n, nextsAllNone (s.scan (some start) (some end_) asc).2.2 (s.iterators.length + 1) n := by
  have hvals :
      (s.scan (some start) (some end_) asc).2.2.iterators
        = hmInsert s.iterators (s.iterators.length + 1) ⟨[], 0⟩ := by
    simp [MockStorage.scan, h]
  have hget :
      hmGet (s.scan (some start) (some end_) asc).2.2.iterators (s.iterators.length + 1)
        = some ⟨[], 0⟩ := by
    rw [hvals]
    exact hmGet_hmInsert_self _ _ _
  exact ⟨rfl, hget, nextsAllNone_of_empty_iter hget⟩

/-- Witness for C6 at a concrete inverted range on the empty store. -/
theorem scan_inverted_range_yields_empty_iterator_witness :
    bytesLt [1] [2] = true ∧
    (MockStorage.new.scan (some [2]) (some [1]) true).1 = Except.ok 1 ∧
    nextsAllNone (MockStorage.new.scan (some [2]) (some [1]) true).2.2 1 3 := by
  have h := scan_inverted_range_yields_empty_iterator MockStorage.new [2] [1] true (by decide)
  exact ⟨by decide, h.1, h.2.2 3⟩

/-! ### UTF-8 rendering (engine.rs `dump_result`) -/

/-- A UTF-8 continuation byte (`0x80..=0xBF`). -/
def isUtf8Cont (b : Nat) : Bool := 128 ≤ b && b < 192

/-- Strict UTF-8 decoding of a byte string into Unicode code points, as
validated by Rust's `String::from_utf8` (rejecting overlong encodings,
surrogates and values above `0x10FFFF`).  The fuel is the number of bytes
still allowed to be consumed; it starts at the list length. -/
def utf8DecodeAux : Nat → List Nat → Option (List Nat)
  | _, [] => some []
  | 0, _ :: _ => none
  | fuel + 1, b0 :: rest =>
    if b0 < 128 then (utf8DecodeAux fuel rest).map (b0 :: ·)
    else if 194 ≤ b0 && b0 ≤ 223 then
      match rest with
      | c1 :: rest1 =>
        if isUtf8Cont c1 then
          (utf8DecodeAux fuel rest1).map (((b0 - 192) * 64 + (c1 - 128)) :: ·)
        else none
      | [] => none
    else if 224 ≤ b0 && b0 ≤ 239 then
      match rest with
      | c1 :: c2 :: rest2 =>
        let okC1 : Bool :=
          if b0 == 224 then 160 ≤ c1 && c1 < 192
          else if b0 == 237 then 128 ≤ c1 && c1 < 160
          else isUtf8Cont c1
        if okC1 && isUtf8Cont c2 then
          (utf8DecodeAux fuel rest2).map
            (((b0 - 224) * 4096 + (c1 - 128) * 64 + (c2 - 128)) :: ·)
        else none
      | _ => none
    else if 240 ≤ b0 && b0 ≤ 244 then
      match rest with
      | c1 :: c2 :: c3 :: rest3 =>
        let okC1 : Bool :=
          if b0 == 240 then 144 ≤ c1 && c1 < 192
          else if b0 == 244 then 128 ≤ c1 && c1 < 144
          else isUtf8Cont c1
        if okC1 && isUtf8Cont c2 && isUtf8Cont c3 then
          (utf8DecodeAux fuel rest3).map
            (((b0 - 240) * 262144 + (c1 - 128) * 4096 + (c2 - 128) * 64 + (c3 - 128)) :: ·)
        else none
      | _ => none
    else none

/-- `String::from_utf8` on a byte string, as the list of decoded code
points (`none` on invalid UTF-8). -/
def utf8Decode (bs : Bytes) : Option (List Nat) := utf8DecodeAux bs.length bs

/-- A lowercase hex digit. -/
def hexDigit (n : Nat) : Char := "0123456789abcdef".toList.getD n (Char.ofNat 48)

/-- Rust `write!("{:02x}", byte)`. -/
def hexByte (b : Nat) : String := String.mk [hexDigit (b / 16 % 16), hexDigit (b % 16)]

/-- Hex rendering of a whole byte string, byte by byte. -/
def hexOfBytes (bs : Bytes) : String := String.join (bs.map hexByte)

/-- Build a string from decoded code points. -/
def stringOfCodePoints (cps : List Nat) : String := String.mk (cps.map Char.ofNat)

/-- engine.rs `ContractInstance::dump_result`, restricted to the value it
returns: the bytes decoded as UTF-8, or their hex rendering when the decoded
string is empty (invalid UTF-8 or no bytes). -/
def dump_result (value : Bytes) : String :=
  let value_str : String :=
    match utf8Decode value with
    | some cps => stringOfCodePoints cps
    | none => ""
  if value_str.isEmpty then hexOfBytes value else value_str

/-! ### engine.rs / main.rs: contract instances, lifecycle calls, dispatcher -/

/-- `cosmwasm_std::Coin`. -/
structure Coin where
  denom : String
  amount : Nat
  deriving DecidableEq, Repr

/-- `cosmwasm_std::MessageInfo`: the sender address and attached funds. -/
structure MessageInfo where
  sender : String
  funds : List Coin
  deriving DecidableEq, Repr

/-- `cosmwasm_std::Attribute`: one (key, value) result pair. -/
structure Attribute where
  key : String
  value : String
  deriving DecidableEq, Repr

/-- An outbound message of a contract response.  The dispatcher in main.rs
only inspects the `CosmosMsg::Wasm(WasmMsg::Execute ...)` variant; every
other variant is opaque to it. -/
inductive CosmosMsg where
  | wasmExecute (contract_addr : String) (msg : Bytes) (send : List Coin)
  | otherMsg
  deriving DecidableEq, Repr

/-- `cosmwasm_std::Response`: attributes plus outbound messages. -/
structure Response where
  attributes : List Attribute
  messages : List CosmosMsg
  deriving DecidableEq, Repr

/-- `cosmwasm_std::ContractResult`. -/
inductive ContractResult (α : Type) where
  | ok (val : α)
  | err (e : String)
  deriving DecidableEq, Repr

/-- Result of one backend entry-point invocation:
`Ok(ContractResult)` or a VM-level error (`VmError`, kept as its message). -/
abbrev VmResult (α : Type) := Except String (ContractResult α)

/-- The sandboxed wasmer execution backend, out of scope for the repository
and modelled as an oracle: for each entry point it maps the contract
address, the environment block height, the caller info (queries carry
none), the payload and the instance storage to the call result and the
storage as the executed contract code left it. -/
structure VmBackend where
  instantiateFn : String → Nat → MessageInfo → Bytes → MockStorage → VmResult Response × MockStorage
  executeFn : String → Nat → MessageInfo → Bytes → MockStorage → VmResult Response × MockStorage
  queryFn : String → Nat → Bytes → MockStorage → VmResult Bytes × MockStorage

/-- One engine.rs `ContractInstance`, reduced to the state the claims are
about: its environment block height (`env.block.height`) and its dedicated
store. -/
structure ContractInstance where
  envHeight : Nat
  store : MockStorage

/-- The process-wide mutable state of main.rs/engine.rs: the shared
`BLOCK_HEIGHT` counter and the `ENGINES` registry mapping a contract address
to its instance. -/
structure GlobalState where
  blockHeight : Nat
  engines : List (String × ContractInstance)

/-- engine.rs initial `BLOCK_HEIGHT`. -/
def INITIAL_BLOCK_HEIGHT : Nat := 12345

/-- `ENGINES.get` / `ENGINES.get_mut` (lookup part). -/
def lookupEngine (st : GlobalState) (addr : String) : Option ContractInstance :=
  (st.engines.find? (fun p => p.1 == addr)).map Prod.snd

/-- Mutate the registry entry of one address in place. -/
def updateEngine (st : GlobalState) (addr : String)
    (f : ContractInstance → ContractInstance) : GlobalState :=
  { st with engines := st.engines.map (fun p => if p.1 == addr then (p.1, f p.2) else p) }

/-- Install the storage state the backend left behind. -/
def setStore (st : GlobalState) (addr : String) (store' : MockStorage) : GlobalState :=
  updateEngine st addr (fun i => { i with store := store' })

/-- `self.env.block.height = BLOCK_HEIGHT` on one instance. -/
def setEnvHeight (st : GlobalState) (addr : String) (h : Nat) : GlobalState :=
  updateEngine st addr (fun i => { i with envHeight := h })

/-- engine.rs failure rendering `format!("\x7b\x7b\"error\":\"\x7b\x7d\"\x7d\x7d", err)`. -/
def errJson (e : String) : String := "\x7b\"error\":\"" ++ e ++ "\"\x7d"

/-- engine.rs success string of `instantiate_raw`. -/
def initSucceeded : String := "\x7b\"message\":\"init succeeded\"\x7d"

/-- engine.rs success string of `execute_raw`. -/
def handleSucceeded : String := "\x7b\"message\":\"handle succeeded\"\x7d"

/-- engine.rs `call` result for an unknown dispatch kind. -/
def wrongDispatcher (func_type : String) : String :=
  "\x7b\"error\":\"wrong dispatcher call " ++ func_type ++ "\"\x7d"

/-- main.rs `execute_contract_response`, parameterized by the execute
operation applied to a present target (the mutual recursion through
`ContractInstance::execute_raw` is tied below with fuel): walk the outbound
messages in order; for a Wasm-Execute message, a missing target records a
failure attribute and processing continues, a present target is executed
with the current contract's address as sender and the message's funds, and
its raw result string is recorded as an attribute keyed by the target
address; other message variants are skipped. -/
def dispatchWith (ex : String → Bytes → MessageInfo → GlobalState → String × GlobalState)
    (sender_addr : String) : List CosmosMsg → GlobalState → List Attribute × GlobalState
  | [], st => ([], st)
  | CosmosMsg.wasmExecute contract_addr msg send :: rest, st =>
    let step : String × GlobalState :=
      match lookupEngine st contract_addr with
      | none => ("No such contract: " ++ contract_addr, st)
      | some _ => ex contract_addr msg ⟨sender_addr, send⟩ st
    let tail := dispatchWith ex sender_addr rest step.2
    (⟨contract_addr, step.1⟩ :: tail.1, tail.2)
  | CosmosMsg.otherMsg :: rest, st => dispatchWith ex sender_addr rest st

/-- engine.rs `ContractInstance::execute_raw` on the instance bound to
`addr`: run the backend; on contract success dispatch the response messages
(callback `execute_contract_response` with this contract's address as
sender), then advance the shared `BLOCK_HEIGHT` by one and sync this
instance's environment height to it, returning the success string; on a
contract error or a VM error return the error JSON and leave all heights
unchanged.  The fuel bounds the cross-contract recursion depth (the Rust
code has no guard and can recurse unboundedly). -/
def execute_raw (B : VmBackend) :
    Nat → String → Bytes → MessageInfo → GlobalState → String × GlobalState
  | 0, _, _, _, st => ("", st)
  | fuel + 1, addr, param, info, st =>
    match lookupEngine st addr with
    | none => ("", st)
    | some inst =>
      match B.executeFn addr inst.envHeight info param inst.store with
      | (Except.ok (ContractResult.ok val), store') =>
        let st1 := setStore st addr store'
        let st2 := (dispatchWith (execute_raw B fuel) addr val.messages st1).2
        let h := st2.blockHeight + 1
        (handleSucceeded, { setEnvHeight st2 addr h with blockHeight := h })
      | (Except.ok (ContractResult.err e), store') => (errJson e, setStore st addr store')
      | (Except.error e, store') => (errJson e, setStore st addr store')

/-- engine.rs `ContractInstance::instantiate_raw`: same shape as
`execute_raw`, with the backend's instantiate entry point and the
`init succeeded` message. -/
def instantiate_raw (B : VmBackend) (fuel : Nat) (addr : String) (param : Bytes)
    (info : MessageInfo) (st : GlobalState) : String × GlobalState :=
  match lookupEngine st addr with
  | none => ("", st)
  | some inst =>
    match B.instantiateFn addr inst.envHeight info param inst.store with
    | (Except.ok (ContractResult.ok val), store') =>
      let st1 := setStore st addr store'
      let st2 := (dispatchWith (execute_raw B fuel) addr val.messages st1).2
      let h := st2.blockHeight + 1
      (initSucceeded, { setEnvHeight st2 addr h with blockHeight := h })
    | (Except.ok (ContractResult.err e), store') => (errJson e, setStore st addr store')
    | (Except.error e, store') => (errJson e, setStore st addr store')

/-- engine.rs `ContractInstance::query_raw`: run the backend query; on
contract success return the raw bytes rendered by `dump_result`; on either
error kind return the error JSON.  No block height is touched. -/
def query_raw (B : VmBackend) (addr : String) (param : Bytes) (st : GlobalState) :
    String × GlobalState :=
  match lookupEngine st addr with
  | none => ("", st)
  | some inst =>
    match B.queryFn addr inst.envHeight param inst.store with
    | (Except.ok (ContractResult.ok val), store') => (dump_result val, setStore st addr store')
    | (Except.ok (ContractResult.err e), store') => (errJson e, setStore st addr store')
    | (Except.error e, store') => (errJson e, setStore st addr store')

/-- main.rs `execute_contract_response` proper: the dispatcher with the
engines' `execute_raw` (at the given recursion fuel) as the execute
operation. -/
def execute_contract_response (B : VmBackend) (fuel : Nat) (sender_addr : String)
    (messages : List CosmosMsg) (st : GlobalState) : List Attribute × GlobalState :=
  dispatchWith (execute_raw B fuel) sender_addr messages st

/-- `str::as_bytes`. -/
def strToBytes (s : String) : Bytes := s.toUTF8.toList.map (fun b => b.toNat)

/-- engine.rs `ContractInstance::call`: dispatch on the kind string; any
kind outside instantiate/execute/query yields the wrong-dispatcher error
without touching the backend. -/
def call (B : VmBackend) (fuel : Nat) (addr func_type param : String)
    (info : MessageInfo) (st : GlobalState) : String × GlobalState :=
  match func_type with
  | "instantiate" => instantiate_raw B fuel addr (strToBytes param) info st
  | "execute" => execute_raw B fuel addr (strToBytes param) info st
  | "query" => query_raw B addr (strToBytes param) st
  | _ => (wrongDispatcher func_type, st)

/-- The block heights of a global state: the shared counter plus every
instance's environment height. -/
def heightsOf (st : GlobalState) : Nat × List (String × Nat) :=
  (st.blockHeight, st.engines.map (fun p => (p.1, p.2.envHeight)))

/-! ### Concrete fixtures for counterexamples and witnesses -/

/-- A backend whose every entry point succeeds with an empty response and
leaves the store untouched; queries answer the two bytes of "hi". -/
def okBackend : VmBackend where
  instantiateFn := fun _ _ _ _ s => (Except.ok (ContractResult.ok ⟨[], []⟩), s)
  executeFn := fun _ _ _ _ s => (Except.ok (ContractResult.ok ⟨[], []⟩), s)
  queryFn := fun _ _ _ s => (Except.ok (ContractResult.ok [104, 105]), s)

/-- The built-in default sender of main.rs. -/
def infoDefault : MessageInfo := ⟨"fake_sender_addr", []⟩

/-- A registry with one fresh instance at the initial block height. -/
def stOne : GlobalState :=
  ⟨INITIAL_BLOCK_HEIGHT, [("aaa", ⟨INITIAL_BLOCK_HEIGHT, MockStorage.new⟩)]⟩

/-- A registry with two fresh instances at the initial block height. -/
def stTwo : GlobalState :=
  ⟨INITIAL_BLOCK_HEIGHT,
   [("aaa", ⟨INITIAL_BLOCK_HEIGHT, MockStorage.new⟩),
    ("bbb", ⟨INITIAL_BLOCK_HEIGHT, MockStorage.new⟩)]⟩

/-! ### C10: unknown dispatch kinds -/

/-- C10: for every payload and every kind outside instantiate/execute/query,
`call` returns exactly the wrong-dispatcher error JSON and leaves the whole
global state — block heights and stores — unchanged, for every backend
(hence without invoking the execution backend at all). -/
theorem call_wrong_dispatcher (B : VmBackend) (fuel : Nat) (addr func_type param : String)
    (info : MessageInfo) (st : GlobalState)
    (h1 : func_type ≠ "instantiate") (h2 : func_type ≠ "execute") (h3 : func_type ≠ "query") :
    call B fuel addr func_type param info st
      = ("\x7b\"error\":\"wrong dispatcher call " ++ func_type ++ "\"\x7d", st) := by
  unfold call
  split
  · exact absurd rfl h1
  · exact absurd rfl h2
  · exact absurd rfl h3
  · rfl

/-- Witness for C10 at the concrete kind "transfer". -/
theorem call_wrong_dispatcher_witness :
    call okBackend 1 "aaa" "transfer" "x" infoDefault stOne
      = ("\x7b\"error\":\"wrong dispatcher call transfer\"\x7d", stOne) :=
  call_wrong_dispatcher okBackend 1 "aaa" "transfer" "x" infoDefault stOne
    (by decide) (by decide) (by decide)

/-! ### C1: block height behaviour -/

/-- Counterexample to C1 as stated: `BLOCK_HEIGHT` is one process-wide
counter shared by all instances, so a single successful execute call on
instance "aaa" — made after an unrelated successful execute on instance
"bbb" — moves "aaa"'s block height from 12345 to 12347: an increment of 2,
not exactly 1. -/
theorem block_height_increment_counterexample :
    (lookupEngine stTwo "aaa").map ContractInstance.envHeight = some 12345 ∧
    (execute_raw okBackend 1 "bbb" [] infoDefault stTwo).1 = handleSucceeded ∧
    (lookupEngine (execute_raw okBackend 1 "bbb" [] infoDefault stTwo).2 "aaa").map
        ContractInstance.envHeight = some 12345 ∧
    (execute_raw okBackend 1 "aaa" [] infoDefault
        (execute_raw okBackend 1 "bbb" [] infoDefault stTwo).2).1 = handleSucceeded ∧
    (lookupEngine (execute_raw okBackend 1 "aaa" [] infoDefault
        (execute_raw okBackend 1 "bbb" [] infoDefault stTwo).2).2 "aaa").map
        ContractInstance.envHeight = some 12347 :=
  ⟨rfl, rfl, rfl, rfl, rfl⟩

/-! ### Registry update lemmas -/

lemma find?_map_update (l : List (String × ContractInstance)) (addr : String)
    (f : ContractInstance → ContractInstance) :
    (l.map (fun p => if p.1 == addr then (p.1, f p.2) else p)).find? (fun p => p.1 == addr)
      = (l.find? (fun p => p.1 == addr)).map (fun p => (p.1, f p.2)) := by
  induction l with
  | nil => rfl
  | cons p rest ih =>
    cases hb : (p.1 == addr) with
    | true =>
      have hT : ((if (p.1 == addr) = true then (p.1, f p.2) else p).1 == addr) = true := by
        simp [hb]
      rw [List.map_cons, List.find?_cons_of_pos (p := fun q : String × ContractInstance => q.1 == addr) _ hT,
        List.find?_cons_of_pos (p := fun q : String × ContractInstance => q.1 == addr) _ hb]
      simp [hb]
    | false =>
      have hF : ¬(((if (p.1 == addr) = true then (p.1, f p.2) else p).1 == addr) = true) := by
        simp [hb]
      have hF2 : ¬((p.1 == addr) = true) := by simp [hb]
      rw [List.map_cons, List.find?_cons_of_neg (p := fun q : String × ContractInstance => q.1 == addr) _ hF,
        List.find?_cons_of_neg (p := fun q : String × ContractInstance => q.1 == addr) _ hF2]
      exact ih

lemma lookupEngine_updateEngine_self (st : GlobalState) (addr : String)
    (f : ContractInstance → ContractInstance) :
    lookupEngine (updateEngine st addr f) addr = (lookupEngine st addr).map f := by
  unfold lookupEngine updateEngine
  rw [find?_map_update]
  cases st.engines.find? (fun p => p.1 == addr) <;> rfl

lemma heightsOf_setStore (st : GlobalState) (addr : String) (s : MockStorage) :
    heightsOf (setStore st addr s) = heightsOf st := by
  unfold heightsOf setStore updateEngine
  simp only [List.map_map]
  refine congrArg (Prod.mk st.blockHeight) ?_
  apply List.map_congr_left
  intro p _
  by_cases h : p.1 = addr
  · simp [h, Function.comp]
  · simp [h, Function.comp]

/-- After a successful state-changing call the instance at `addr` carries
the new height and the backend's storage. -/
lemma lookupEngine_bump (st : GlobalState) (addr : String) (s2 : MockStorage) (H : Nat)
    {inst : ContractInstance} (hl : lookupEngine st addr = some inst) :
    lookupEngine { setEnvHeight (setStore st addr s2) addr H with blockHeight := H } addr
      = some ⟨H, s2⟩ := by
  have h1 : lookupEngine { setEnvHeight (setStore st addr s2) addr H with blockHeight := H } addr
      = lookupEngine (setEnvHeight (setStore st addr s2) addr H) addr := rfl
  rw [h1]
  cases inst with
  | mk e s =>
    simp [setEnvHeight, setStore, lookupEngine_updateEngine_self, hl]

/-! ### Branch equations of the lifecycle calls -/

lemma execute_raw_success_eq (B : VmBackend) (fuel : Nat) (addr : String) (param : Bytes)
    (info : MessageInfo) (st : GlobalState) (inst : ContractInstance)
    (attrs : List Attribute) (store2 : MockStorage)
    (hl : lookupEngine st addr = some inst)
    (hx : B.executeFn addr inst.envHeight info param inst.store
        = (Except.ok (ContractResult.ok ⟨attrs, []⟩), store2)) :
    execute_raw B (fuel + 1) addr param info st
      = (handleSucceeded,
         { setEnvHeight (setStore st addr store2) addr (st.blockHeight + 1) with
             blockHeight := st.blockHeight + 1 }) := by
  simp only [execute_raw, hl, hx, dispatchWith]
  rfl

lemma execute_raw_success_fst (B : VmBackend) (fuel : Nat) (addr : String) (param : Bytes)
    (info : MessageInfo) (st : GlobalState) (inst : ContractInstance)
    (val : Response) (store2 : MockStorage)
    (hl : lookupEngine st addr = some inst)
    (hx : B.executeFn addr inst.envHeight info param inst.store
        = (Except.ok (ContractResult.ok val), store2)) :
    (execute_raw B (fuel + 1) addr param info st).1 = handleSucceeded := by
  simp only [execute_raw, hl, hx, dispatchWith]

lemma execute_raw_contract_err_eq (B : VmBackend) (fuel : Nat) (addr : String) (param : Bytes)
    (info : MessageInfo) (st : GlobalState) (inst : ContractInstance)
    (e : String) (store2 : MockStorage)
    (hl : lookupEngine st addr = some inst)
    (hx : B.executeFn addr inst.envHeight info param inst.store
        = (Except.ok (ContractResult.err e), store2)) :
    execute_raw B (fuel + 1) addr param info st = (errJson e, setStore st addr store2) := by
  simp only [execute_raw, hl, hx, dispatchWith]

lemma execute_raw_vm_err_eq (B : VmBackend) (fuel : Nat) (addr : String) (param : Bytes)
    (info : MessageInfo) (st : GlobalState) (inst : ContractInstance)
    (e : String) (store2 : MockStorage)
    (hl : lookupEngine st addr = some inst)
    (hx : B.executeFn addr inst.envHeight info param inst.store
        = (Except.error e, store2)) :
    execute_raw B (fuel + 1) addr param info st = (errJson e, setStore st addr store2) := by
  simp only [execute_raw, hl, hx, dispatchWith]

lemma instantiate_raw_success_eq (B : VmBackend) (fuel : Nat) (addr : String) (param : Bytes)
    (info : MessageInfo) (st : GlobalState) (inst : ContractInstance)
    (attrs : List Attribute) (store2 : MockStorage)
    (hl : lookupEngine st addr = some inst)
    (hx : B.instantiateFn addr inst.envHeight info param inst.store
        = (Except.ok (ContractResult.ok ⟨attrs, []⟩), store2)) :
    instantiate_raw B fuel addr param info st
      = (initSucceeded,
         { setEnvHeight (setStore st addr store2) addr (st.blockHeight + 1) with
             blockHeight := st.blockHeight + 1 }) := by
  simp only [instantiate_raw, hl, hx, dispatchWith]
  rfl

lemma instantiate_raw_success_fst (B : VmBackend) (fuel : Nat) (addr : String) (param : Bytes)
    (info : MessageInfo) (st : GlobalState) (inst : ContractInstance)
    (val : Response) (store2 : MockStorage)
    (hl : lookupEngine st addr = some inst)
    (hx : B.instantiateFn addr inst.envHeight info param inst.store
        = (Except.ok (ContractResult.ok val), store2)) :
    (instantiate_raw B fuel addr param info st).1 = initSucceeded := by
  simp only [instantiate_raw, hl, hx, dispatchWith]

lemma instantiate_raw_contract_err_eq (B : VmBackend) (fuel : Nat) (addr : String)
    (param : Bytes) (info : MessageInfo) (st : GlobalState) (inst : ContractInstance)
    (e : String) (store2 : MockStorage)
    (hl : lookupEngine st addr = some inst)
    (hx : B.instantiateFn addr inst.envHeight info param inst.store
        = (Except.ok (ContractResult.err e), store2)) :
    instantiate_raw B fuel addr param info st = (errJson e, setStore st addr store2) := by
  simp only [instantiate_raw, hl, hx, dispatchWith]

lemma instantiate_raw_vm_err_eq (B : VmBackend) (fuel : Nat) (addr : String)
    (param : Bytes) (info : MessageInfo) (st : GlobalState) (inst : ContractInstance)
    (e : String) (store2 : MockStorage)
    (hl : lookupEngine st addr = some inst)
    (hx : B.instantiateFn addr inst.envHeight info param inst.store
        = (Except.error e, store2)) :
    instantiate_raw B fuel addr param info st = (errJson e, setStore st addr store2) := by
  simp only [instantiate_raw, hl, hx, dispatchWith]

lemma query_raw_success_eq (B : VmBackend) (addr : String) (param : Bytes)
    (st : GlobalState) (inst : ContractInstance) (val : Bytes) (store2 : MockStorage)
    (hl : lookupEngine st addr = some inst)
    (hx : B.queryFn addr inst.envHeight param inst.store
        = (Except.ok (ContractResult.ok val), store2)) :
    query_raw B addr param st = (dump_result val, setStore st addr store2) := by
  simp only [query_raw, hl, hx]

lemma query_raw_contract_err_eq (B : VmBackend) (addr : String) (param : Bytes)
    (st : GlobalState) (inst : ContractInstance) (e : String) (store2 : MockStorage)
    (hl : lookupEngine st addr = some inst)
    (hx : B.queryFn addr inst.envHeight param inst.store
        = (Except.ok (ContractResult.err e), store2)) :
    query_raw B addr param st = (errJson e, setStore st addr store2) := by
  simp only [query_raw, hl, hx]

lemma query_raw_vm_err_eq (B : VmBackend) (addr : String) (param : Bytes)
    (st : GlobalState) (inst : ContractInstance) (e : String) (store2 : MockStorage)
    (hl : lookupEngine st addr = some inst)
    (hx : B.queryFn addr inst.envHeight param inst.store = (Except.error e, store2)) :
    query_raw B addr param st = (errJson e, setStore st addr store2) := by
  simp only [query_raw, hl, hx]

/-- `query_raw` never changes any block height, whatever the backend does. -/
lemma query_raw_heights (B : VmBackend) (addr : String) (param : Bytes) (st : GlobalState) :
    heightsOf (query_raw B addr param st).2 = heightsOf st := by
  unfold query_raw
  cases hl : lookupEngine st addr with
  | none => rfl
  | some inst =>
    rcases hq : B.queryFn addr inst.envHeight param inst.store with ⟨r, store2⟩
    cases r with
    | ok cr =>
      cases cr with
      | ok val => simp [hq, heightsOf_setStore]
      | err e2 => simp [hq, heightsOf_setStore]
    | error e => simp [hq, heightsOf_setStore]

/-- C1 (amended): a successful instantiate or execute call sets both the
shared `BLOCK_HEIGHT` counter and the calling instance's block height to one
more than the counter's current value; because the counter is shared by all
instances, this is an increment of exactly 1 for the instance precisely when
its height equalled the counter before the call (as in a single-instance
run).  A failed call — contract error or backend error, on instantiate as
on execute — and a query call leave every block height unchanged.  Two
sequential successful execute calls
on the same instance, with no intervening calls on other instances, increase
its block height by exactly 2.  (Success cases are stated for responses with
no outbound messages, so no other instance runs inside the call.) -/
theorem block_height_amended (B : VmBackend) (fuel : Nat) (addr : String)
    (param param2 : Bytes) (info info2 : MessageInfo) (st : GlobalState)
    (inst : ContractInstance)
    (hl : lookupEngine st addr = some inst)
    (hsync : inst.envHeight = st.blockHeight) :
    (∀ attrs store2,
      B.executeFn addr inst.envHeight info param inst.store
          = (Except.ok (ContractResult.ok ⟨attrs, []⟩), store2) →
      (execute_raw B (fuel + 1) addr param info st).1 = handleSucceeded ∧
      (execute_raw B (fuel + 1) addr param info st).2.blockHeight = inst.envHeight + 1 ∧
      (lookupEngine (execute_raw B (fuel + 1) addr param info st).2 addr).map
          ContractInstance.envHeight = some (inst.envHeight + 1)) ∧
    (∀ attrs store2,
      B.instantiateFn addr inst.envHeight info param inst.store
          = (Except.ok (ContractResult.ok ⟨attrs, []⟩), store2) →
      (instantiate_raw B fuel addr param info st).1 = initSucceeded ∧
      (instantiate_raw B fuel addr param info st).2.blockHeight = inst.envHeight + 1 ∧
      (lookupEngine (instantiate_raw B fuel addr param info st).2 addr).map
          ContractInstance.envHeight = some (inst.envHeight + 1)) ∧
    (∀ e store2,
      B.executeFn addr inst.envHeight info param inst.store
          = (Except.ok (ContractResult.err e), store2) →
      heightsOf (execute_raw B (fuel + 1) addr param info st).2 = heightsOf st) ∧
    (∀ e store2,
      B.executeFn addr inst.envHeight info param inst.store
          = (Except.error e, store2) →
      heightsOf (execute_raw B (fuel + 1) addr param info st).2 = heightsOf st) ∧
    (∀ e store2,
      B.instantiateFn addr inst.envHeight info param inst.store
          = (Except.ok (ContractResult.err e), store2) →
      heightsOf (instantiate_raw B fuel addr param info st).2 = heightsOf st) ∧
    (∀ e store2,
      B.instantiateFn addr inst.envHeight info param inst.store
          = (Except.error e, store2) →
      heightsOf (instantiate_raw B fuel addr param info st).2 = heightsOf st) ∧
    heightsOf (query_raw B addr param st).2 = heightsOf st ∧
    (∀ attrs1 store1 attrs2 store2,
      B.executeFn addr inst.envHeight info param inst.store
          = (Except.ok (ContractResult.ok ⟨attrs1, []⟩), store1) →
      B.executeFn addr (inst.envHeight + 1) info2 param2 store1
          = (Except.ok (ContractResult.ok ⟨attrs2, []⟩), store2) →
      (execute_raw B (fuel + 1) addr param2 info2
          (execute_raw B (fuel + 1) addr param info st).2).2.blockHeight
        = inst.envHeight + 2 ∧
      (lookupEngine (execute_raw B (fuel + 1) addr param2 info2
          (execute_raw B (fuel + 1) addr param info st).2).2 addr).map
          ContractInstance.envHeight = some (inst.envHeight + 2)) := by
  refine ⟨?_, ?_, ?_, ?_, ?_, ?_, query_raw_heights B addr param st, ?_⟩
  · intro attrs store2 hx
    rw [execute_raw_success_eq B fuel addr param info st inst attrs store2 hl hx]
    refine ⟨rfl, by simp [hsync], ?_⟩
    rw [lookupEngine_bump st addr store2 (st.blockHeight + 1) hl]
    simp [hsync]
  · intro attrs store2 hx
    rw [instantiate_raw_success_eq B fuel addr param info st inst attrs store2 hl hx]
    refine ⟨rfl, by simp [hsync], ?_⟩
    rw [lookupEngine_bump st addr store2 (st.blockHeight + 1) hl]
    simp [hsync]
  · intro e store2 hx
    rw [execute_raw_contract_err_eq B fuel addr param info st inst e store2 hl hx]
    exact heightsOf_setStore st addr store2
  · intro e store2 hx
    rw [execute_raw_vm_err_eq B fuel addr param info st inst e store2 hl hx]
    exact heightsOf_setStore st addr store2
  · intro e store2 hx
    rw [instantiate_raw_contract_err_eq B fuel addr param info st inst e store2 hl hx]
    exact heightsOf_setStore st addr store2
  · intro e store2 hx
    rw [instantiate_raw_vm_err_eq B fuel addr param info st inst e store2 hl hx]
    exact heightsOf_setStore st addr store2
  · intro attrs1 store1 attrs2 store2 hx1 hx2
    have e1 := execute_raw_success_eq B fuel addr param info st inst attrs1 store1 hl hx1
    have hl1 : lookupEngine (execute_raw B (fuel + 1) addr param info st).2 addr
        = some ⟨st.blockHeight + 1, store1⟩ := by
      rw [e1]
      exact lookupEngine_bump st addr store1 (st.blockHeight + 1) hl
    have hbh1 : (execute_raw B (fuel + 1) addr param info st).2.blockHeight
        = st.blockHeight + 1 := by
      rw [e1]
    have hx2' : B.executeFn addr
        (ContractInstance.mk (st.blockHeight + 1) store1).envHeight info2 param2
        (ContractInstance.mk (st.blockHeight + 1) store1).store
          = (Except.ok (ContractResult.ok ⟨attrs2, []⟩), store2) := by
      show B.executeFn addr (st.blockHeight + 1) info2 param2 store1 = _
      rw [← hsync]
      exact hx2
    have e2 := execute_raw_success_eq B fuel addr param2 info2
      (execute_raw B (fuel + 1) addr param info st).2
      ⟨st.blockHeight + 1, store1⟩ attrs2 store2 hl1 hx2'
    constructor
    · rw [e2]
      show (execute_raw B (fuel + 1) addr param info st).2.blockHeight + 1 = inst.envHeight + 2
      rw [hbh1, hsync]
    · rw [e2]
      rw [lookupEngine_bump _ addr store2 _ hl1]
      rw [hbh1, hsync]
      simp

/-- Witness for the amended C1 on a concrete single-instance registry. -/
theorem block_height_amended_witness :
    (execute_raw okBackend 1 "aaa" [] infoDefault stOne).1 = handleSucceeded ∧
    (execute_raw okBackend 1 "aaa" [] infoDefault stOne).2.blockHeight = 12346 ∧
    heightsOf (query_raw okBackend "aaa" [] stOne).2 = heightsOf stOne ∧
    (execute_raw okBackend 1 "aaa" [] infoDefault
        (execute_raw okBackend 1 "aaa" [] infoDefault stOne).2).2.blockHeight = 12347 := by
  have h := block_height_amended okBackend 0 "aaa" [] [] infoDefault infoDefault stOne
      ⟨INITIAL_BLOCK_HEIGHT, MockStorage.new⟩ rfl rfl
  obtain ⟨hexec, _, _, _, _, _, hq, hseq⟩ := h
  obtain ⟨h1, h2, _⟩ := hexec [] MockStorage.new rfl
  obtain ⟨h3, _⟩ := hseq [] MockStorage.new [] MockStorage.new rfl rfl
  exact ⟨h1, h2, hq, h3⟩

/-! ### C2: result strings of the lifecycle calls -/

/-- Counterexample to C2 as stated: the success strings use the legacy kind
names.  A successful instantiate returns exactly
the JSON message "init succeeded" — not "instantiate succeeded" — and a
successful execute returns "handle succeeded" — not "execute succeeded". -/
theorem success_message_kind_counterexample :
    (instantiate_raw okBackend 0 "aaa" [] infoDefault stOne).1
      = "\x7b\"message\":\"init succeeded\"\x7d" ∧
    (execute_raw okBackend 1 "aaa" [] infoDefault stOne).1
      = "\x7b\"message\":\"handle succeeded\"\x7d" ∧
    "\x7b\"message\":\"init succeeded\"\x7d"
      ≠ "\x7b\"message\":\"instantiate succeeded\"\x7d" ∧
    "\x7b\"message\":\"handle succeeded\"\x7d"
      ≠ "\x7b\"message\":\"execute succeeded\"\x7d" :=
  ⟨rfl, rfl, by decide, by decide⟩

lemma stringOfCodePoints_isEmpty_false {cps : List Nat} (h : cps ≠ []) :
    (stringOfCodePoints cps).isEmpty = false := by
  cases cps with
  | nil => exact absurd rfl h
  | cons c rest =>
    rw [Bool.eq_false_iff]
    intro hT
    have he := (String.isEmpty_iff _).mp hT
    have hd := congrArg String.data he
    simp [stringOfCodePoints] at hd

/-- On bytes that decode as nonempty UTF-8, `dump_result` returns exactly
the decoded text; so a successful query surfaces its raw bytes. -/
lemma dump_result_utf8 {value : Bytes} {cps : List Nat}
    (h : utf8Decode value = some cps) (hne : cps ≠ []) :
    dump_result value = stringOfCodePoints cps := by
  unfold dump_result
  rw [h]
  simp [stringOfCodePoints_isEmpty_false hne]

/-- C2 (amended): for every instance and backend outcome, a successful
instantiate returns the fixed JSON string with message "init succeeded", a
successful execute the one with message "handle succeeded"; every failed
call — contract error or backend error, on any of the three kinds — returns
the error JSON of its description; and a successful query returns the raw
query bytes as rendered by `dump_result` (the decoded UTF-8 text whenever
the bytes are valid nonempty UTF-8). -/
theorem call_result_strings_amended (B : VmBackend) (fuel : Nat) (addr : String)
    (param : Bytes) (info : MessageInfo) (st : GlobalState) (inst : ContractInstance)
    (hl : lookupEngine st addr = some inst) :
    (∀ val store2,
      B.instantiateFn addr inst.envHeight info param inst.store
          = (Except.ok (ContractResult.ok val), store2) →
      (instantiate_raw B fuel addr param info st).1 = initSucceeded) ∧
    (∀ val store2,
      B.executeFn addr inst.envHeight info param inst.store
          = (Except.ok (ContractResult.ok val), store2) →
      (execute_raw B (fuel + 1) addr param info st).1 = handleSucceeded) ∧
    (∀ e store2,
      B.instantiateFn addr inst.envHeight info param inst.store
          = (Except.ok (ContractResult.err e), store2) →
      (instantiate_raw B fuel addr param info st).1 = errJson e) ∧
    (∀ e store2,
      B.instantiateFn addr inst.envHeight info param inst.store
          = (Except.error e, store2) →
      (instantiate_raw B fuel addr param info st).1 = errJson e) ∧
    (∀ e store2,
      B.executeFn addr inst.envHeight info param inst.store
          = (Except.ok (ContractResult.err e), store2) →
      (execute_raw B (fuel + 1) addr param info st).1 = errJson e) ∧
    (∀ e store2,
      B.executeFn addr inst.envHeight info param inst.store
          = (Except.error e, store2) →
      (execute_raw B (fuel + 1) addr param info st).1 = errJson e) ∧
    (∀ e store2,
      B.queryFn addr inst.envHeight param inst.store
          = (Except.ok (ContractResult.err e), store2) →
      (query_raw B addr param st).1 = errJson e) ∧
    (∀ e store2,
      B.queryFn addr inst.envHeight param inst.store = (Except.error e, store2) →
      (query_raw B addr param st).1 = errJson e) ∧
    (∀ val store2,
      B.queryFn addr inst.envHeight param inst.store
          = (Except.ok (ContractResult.ok val), store2) →
      (query_raw B addr param st).1 = dump_result val ∧
      ∀ cps, utf8Decode val = some cps → cps ≠ [] →
        (query_raw B addr param st).1 = stringOfCodePoints cps) := by
  refine ⟨?_, ?_, ?_, ?_, ?_, ?_, ?_, ?_, ?_⟩
  · intro val store2 hx
    exact instantiate_raw_success_fst B fuel addr param info st inst val store2 hl hx
  · intro val store2 hx
    exact execute_raw_success_fst B fuel addr param info st inst val store2 hl hx
  · intro e store2 hx
    rw [instantiate_raw_contract_err_eq B fuel addr param info st inst e store2 hl hx]
  · intro e store2 hx
    rw [instantiate_raw_vm_err_eq B fuel addr param info st inst e store2 hl hx]
  · intro e store2 hx
    rw [execute_raw_contract_err_eq B fuel addr param info st inst e store2 hl hx]
  · intro e store2 hx
    rw [execute_raw_vm_err_eq B fuel addr param info st inst e store2 hl hx]
  · intro e store2 hx
    rw [query_raw_contract_err_eq B addr param st inst e store2 hl hx]
  · intro e store2 hx
    rw [query_raw_vm_err_eq B addr param st inst e store2 hl hx]
  · intro val store2 hx
    have hq := query_raw_success_eq B addr param st inst val store2 hl hx
    refine ⟨by rw [hq], ?_⟩
    intro cps hdec hne
    rw [hq]
    exact dump_result_utf8 hdec hne

/-- Witness for the amended C2 on a concrete registry and backend: the query
answer bytes of "hi" surface verbatim. -/
theorem call_result_strings_amended_witness :
    (instantiate_raw okBackend 0 "aaa" [] infoDefault stOne).1 = initSucceeded ∧
    (execute_raw okBackend 1 "aaa" [] infoDefault stOne).1 = handleSucceeded ∧
    (query_raw okBackend "aaa" [] stOne).1 = "hi" := by
  have h := call_result_strings_amended okBackend 0 "aaa" [] infoDefault stOne
      ⟨INITIAL_BLOCK_HEIGHT, MockStorage.new⟩ rfl
  obtain ⟨hi, hx, _, _, _, _, _, _, hq⟩ := h
  obtain ⟨_, hq2⟩ := hq [104, 105] MockStorage.new rfl
  refine ⟨hi ⟨[], []⟩ MockStorage.new rfl, hx ⟨[], []⟩ MockStorage.new rfl, ?_⟩
  have := hq2 [104, 105] (by decide) (by decide)
  rw [this]
  rfl

/-! ### C3: the recursive dispatcher -/

/-- The target addresses of the Wasm-Execute messages of a list, in order. -/
def wasmTargets (msgs : List CosmosMsg) : List String :=
  msgs.filterMap (fun m => match m with
    | CosmosMsg.wasmExecute a _ _ => some a
    | CosmosMsg.otherMsg => none)

lemma dispatchWith_keys (ex : String → Bytes → MessageInfo → GlobalState → String × GlobalState)
    (sender : String) :
    ∀ (msgs : List CosmosMsg) (st : GlobalState),
      ((dispatchWith ex sender msgs st).1).map Attribute.key = wasmTargets msgs := by
  intro msgs
  induction msgs with
  | nil => intro st; rfl
  | cons m rest ih =>
    intro st
    cases m with
    | wasmExecute a mm send => simp [dispatchWith, wasmTargets, ih, List.filterMap_cons]
    | otherMsg => simpa [dispatchWith, wasmTargets, List.filterMap_cons] using ih st

/-- C3: the dispatcher walks the outbound messages in order and never aborts
— it emits exactly one attribute, keyed by the target address, per
execute-another-contract message (first conjunct: the attribute keys are
exactly the targets, in order).  A missing target yields the failure
attribute and processing continues on the remaining messages with the state
unchanged; a present target is executed synchronously with a `MessageInfo`
whose sender is the current contract's address and whose funds are the
message's attached funds, its raw result string recorded under the target
address; non-execute messages are skipped. -/
theorem dispatcher_semantics (B : VmBackend) (fuel : Nat) (sender contract_addr : String)
    (m : Bytes) (send : List Coin) (rest : List CosmosMsg) (st : GlobalState) :
    (∀ msgs st9, ((execute_contract_response B fuel sender msgs st9).1).map Attribute.key
        = wasmTargets msgs) ∧
    (lookupEngine st contract_addr = none →
      execute_contract_response B fuel sender
          (CosmosMsg.wasmExecute contract_addr m send :: rest) st
        = (⟨contract_addr, "No such contract: " ++ contract_addr⟩ ::
             (execute_contract_response B fuel sender rest st).1,
           (execute_contract_response B fuel sender rest st).2)) ∧
    (∀ inst, lookupEngine st contract_addr = some inst →
      execute_contract_response B fuel sender
          (CosmosMsg.wasmExecute contract_addr m send :: rest) st
        = (⟨contract_addr,
              (execute_raw B fuel contract_addr m ⟨sender, send⟩ st).1⟩ ::
             (execute_contract_response B fuel sender rest
               (execute_raw B fuel contract_addr m ⟨sender, send⟩ st).2).1,
           (execute_contract_response B fuel sender rest
             (execute_raw B fuel contract_addr m ⟨sender, send⟩ st).2).2)) ∧
    execute_contract_response B fuel sender (CosmosMsg.otherMsg :: rest) st
      = execute_contract_response B fuel sender rest st := by
  refine ⟨?_, ?_, ?_, rfl⟩
  · intro msgs st9
    exact dispatchWith_keys (execute_raw B fuel) sender msgs st9
  · intro h
    simp only [execute_contract_response, dispatchWith, h]
  · intro inst h
    simp only [execute_contract_response, dispatchWith, h]

/-- Witness for C3: one message to a missing target followed by an opaque
message produces exactly the failure attribute and leaves the state as is. -/
theorem dispatcher_semantics_witness :
    execute_contract_response okBackend 1 "aaa"
        [CosmosMsg.wasmExecute "zzz" [] [], CosmosMsg.otherMsg] stOne
      = ([⟨"zzz", "No such contract: zzz"⟩], stOne) := by
  have h := (dispatcher_semantics okBackend 1 "aaa" "zzz" [] [] [CosmosMsg.otherMsg] stOne).2.1 rfl
  rw [h]
  rfl

/-! ### C4: the query gas gate (mock.rs MockQuerier) -/

/-- Gas constants of `MockQuerier` in mock.rs. -/
def GAS_COST_QUERY_FLAT : Nat := 100000

def GAS_COST_QUERY_REQUEST_MULTIPLIER : Nat := 0

def GAS_COST_QUERY_RESPONSE_MULTIPLIER : Nat := 100

/-- `cosmwasm_std::SystemError`, restricted to the constructors the embedded
code produces. -/
inductive SystemError where
  | noSuchContract (addr : String)
  | invalidResponse (error : String)
  | unsupportedRequest (kind : String)
  | invalidRequest (error : String)
  deriving DecidableEq, Repr

/-- `cosmwasm_std::SystemResult`. -/
inductive SystemResult (α : Type) where
  | ok (val : α)
  | err (e : SystemError)
  deriving DecidableEq, Repr

/-- The total gas charged by `MockQuerier::query_raw`: a flat cost plus
per-byte multipliers on the request bytes and on the serialized response. -/
def mockQuerierGasCost (raw_query : Bytes → SystemResult (ContractResult Bytes))
    (serializedLen : SystemResult (ContractResult Bytes) → Nat) (bin_request : Bytes) : Nat :=
  GAS_COST_QUERY_FLAT
    + GAS_COST_QUERY_REQUEST_MULTIPLIER * bin_request.length
    + GAS_COST_QUERY_RESPONSE_MULTIPLIER * serializedLen (raw_query bin_request)

/-- mock.rs `MockQuerier::query_raw`: compute the response through the inner
router, charge the byte-based gas cost, and return `OutOfGas` instead of the
response whenever the cost exceeds the caller's gas limit.  The inner router
(`StdMockQuerier::raw_query`) and the serde serialization used only for the
response's byte count are parameters of this layer. -/
def mockQuerierQueryRaw (raw_query : Bytes → SystemResult (ContractResult Bytes))
    (serializedLen : SystemResult (ContractResult Bytes) → Nat)
    (bin_request : Bytes) (gas_limit : Nat) :
    Except BackendError (SystemResult (ContractResult Bytes)) × Nat :=
  let response := raw_query bin_request
  let gas := mockQuerierGasCost raw_query serializedLen bin_request
  if gas > gas_limit then (Except.error BackendError.outOfGas, gas)
  else (Except.ok response, gas)

/-- C4: every `query_raw` charges exactly the flat-plus-per-byte cost; when
that cost exceeds the caller's gas limit the call returns `OutOfGas` and no
response data; otherwise it returns the router's response. -/
theorem querier_gas_gate (raw_query : Bytes → SystemResult (ContractResult Bytes))
    (serializedLen : SystemResult (ContractResult Bytes) → Nat)
    (bin_request : Bytes) (gas_limit : Nat) :
    (mockQuerierQueryRaw raw_query serializedLen bin_request gas_limit).2
      = GAS_COST_QUERY_FLAT
        + GAS_COST_QUERY_REQUEST_MULTIPLIER * bin_request.length
        + GAS_COST_QUERY_RESPONSE_MULTIPLIER * serializedLen (raw_query bin_request) ∧
    (mockQuerierGasCost raw_query serializedLen bin_request > gas_limit →
      (mockQuerierQueryRaw raw_query serializedLen bin_request gas_limit).1
        = Except.error BackendError.outOfGas) ∧
    (mockQuerierGasCost raw_query serializedLen bin_request ≤ gas_limit →
      (mockQuerierQueryRaw raw_query serializedLen bin_request gas_limit).1
        = Except.ok (raw_query bin_request)) := by
  refine ⟨?_, ?_, ?_⟩
  · simp only [mockQuerierQueryRaw]
    split <;> rfl
  · intro h
    simp only [mockQuerierQueryRaw]
    rw [if_pos h]
  · intro h
    simp only [mockQuerierQueryRaw]
    rw [if_neg (by omega)]

/-- Witness for C4: with a one-byte serialized response the cost is 100100,
which trips the gate at limit 5 and passes at limit 200000. -/
theorem querier_gas_gate_witness :
    (mockQuerierQueryRaw (fun q => SystemResult.ok (ContractResult.ok q)) (fun _ => 1) [] 5).1
      = Except.error BackendError.outOfGas ∧
    (mockQuerierQueryRaw (fun q => SystemResult.ok (ContractResult.ok q))
        (fun _ => 1) [] 200000).1
      = Except.ok (SystemResult.ok (ContractResult.ok [])) := by
  have h1 := (querier_gas_gate (fun q => SystemResult.ok (ContractResult.ok q))
      (fun _ => 1) [] 5).2.1 (by decide)
  have h2 := (querier_gas_gate (fun q => SystemResult.ok (ContractResult.ok q))
      (fun _ => 1) [] 200000).2.2 (by decide)
  exact ⟨h1, h2⟩

/-! ### C7: cross-contract smart queries (main.rs query_wasm) -/

/-- `cosmwasm_std::WasmQuery`, the two variants main.rs matches. -/
inductive WasmQuery where
  | smart (contract_addr : String) (msg : Bytes)
  | rawQuery (contract_addr : String) (key : Bytes)

/-- main.rs `query_wasm`: a smart query resolves the target in `ENGINES`; a
missing target is `NoSuchContract` for that address; a present one runs the
target instance's query entry point, returning its contract-level result
as-is (a VM-level failure becomes `InvalidResponse`); non-smart requests are
unsupported. -/
def query_wasm (B : VmBackend) (st : GlobalState) (request : WasmQuery) :
    SystemResult (ContractResult Bytes) :=
  match request with
  | WasmQuery.smart contract_addr msg =>
    match lookupEngine st contract_addr with
    | none => SystemResult.err (SystemError.noSuchContract contract_addr)
    | some engine =>
      match (B.queryFn contract_addr engine.envHeight msg engine.store).1 with
      | Except.ok response => SystemResult.ok response
      | Except.error err => SystemResult.err (SystemError.invalidResponse err)
  | WasmQuery.rawQuery _ _ =>
    SystemResult.err (SystemError.unsupportedRequest "Not implemented")

/-- C7: a smart query to an address absent from the registry fails with
`NoSuchContract` naming that address; to a present address it invokes that
instance's query operation and returns its raw result. -/
theorem query_wasm_routing (B : VmBackend) (st : GlobalState) (contract_addr : String)
    (msg : Bytes) :
    (lookupEngine st contract_addr = none →
      query_wasm B st (WasmQuery.smart contract_addr msg)
        = SystemResult.err (SystemError.noSuchContract contract_addr)) ∧
    (∀ engine response store2, lookupEngine st contract_addr = some engine →
      (B.queryFn contract_addr engine.envHeight msg engine.store) = (Except.ok response, store2) →
      query_wasm B st (WasmQuery.smart contract_addr msg) = SystemResult.ok response) := by
  constructor
  · intro h
    simp [query_wasm, h]
  · intro engine response store2 hl hq
    simp [query_wasm, hl, hq]

/-- Witness for C7: the missing target "zzz" and the present target "aaa". -/
theorem query_wasm_routing_witness :
    query_wasm okBackend stOne (WasmQuery.smart "zzz" [])
      = SystemResult.err (SystemError.noSuchContract "zzz") ∧
    query_wasm okBackend stOne (WasmQuery.smart "aaa" [])
      = SystemResult.ok (ContractResult.ok [104, 105]) := by
  refine ⟨(query_wasm_routing okBackend stOne "zzz" []).1 rfl, ?_⟩
  exact (query_wasm_routing okBackend stOne "aaa" []).2
    ⟨INITIAL_BLOCK_HEIGHT, MockStorage.new⟩ (ContractResult.ok [104, 105]) MockStorage.new
    rfl rfl

/-! ### C8: bank queries (querier.rs BankQuerier) -/

/-- `cosmwasm_std::BankQuery`, the two variants the router answers. -/
inductive BankQuery where
  | balance (address denom : String)
  | allBalances (address : String)

/-- The bank responses (`BalanceResponse` / `AllBalanceResponse`), kept as
values; their serde serialization cannot fail on these shapes. -/
inductive BankResponse where
  | balanceRes (amount : Coin)
  | allBalanceRes (amount : List Coin)
  deriving DecidableEq, Repr

/-- querier.rs `BankQuerier`: the balance table (`HashMap`). -/
structure BankQuerier where
  balances : List (String × List Coin)

/-- `HashMap::get` on the balance table. -/
def hmGetCoins (m : List (String × List Coin)) (address : String) : Option (List Coin) :=
  (m.find? (fun p => p.1 == address)).map Prod.snd

/-- querier.rs `BankQuerier::query`: `Balance` answers the matching coin's
amount (defaulting to zero) under the requested denom; `AllBalances` answers
the address's coin list (defaulting to empty); the system result is always
Ok. -/
def BankQuerier.query (bq : BankQuerier) (request : BankQuery) :
    SystemResult (ContractResult BankResponse) :=
  match request with
  | BankQuery.balance address denom =>
    let amount := (((hmGetCoins bq.balances address).bind
        (fun v => v.find? (fun c => c.denom == denom))).map Coin.amount).getD 0
    SystemResult.ok (ContractResult.ok (BankResponse.balanceRes ⟨denom, amount⟩))
  | BankQuery.allBalances address =>
    SystemResult.ok (ContractResult.ok
      (BankResponse.allBalanceRes ((hmGetCoins bq.balances address).getD [])))

/-- C8: bank queries on an address with no configured balance succeed with a
zero amount (`Balance`) or an empty coin list (`AllBalances`) — never an
error. -/
theorem bank_query_unknown_address (bq : BankQuerier) (address denom : String)
    (h : hmGetCoins bq.balances address = none) :
    bq.query (BankQuery.balance address denom)
      = SystemResult.ok (ContractResult.ok (BankResponse.balanceRes ⟨denom, 0⟩)) ∧
    bq.query (BankQuery.allBalances address)
      = SystemResult.ok (ContractResult.ok (BankResponse.allBalanceRes [])) := by
  constructor <;> simp [BankQuerier.query, h]

/-- Witness for C8 on a concrete one-entry balance table. -/
theorem bank_query_unknown_address_witness :
    BankQuerier.query ⟨[("aaa", [⟨"orai", 7⟩])]⟩ (BankQuery.balance "zzz" "orai")
      = SystemResult.ok (ContractResult.ok (BankResponse.balanceRes ⟨"orai", 0⟩)) ∧
    BankQuerier.query ⟨[("aaa", [⟨"orai", 7⟩])]⟩ (BankQuery.allBalances "zzz")
      = SystemResult.ok (ContractResult.ok (BankResponse.allBalanceRes [])) :=
  bank_query_unknown_address ⟨[("aaa", [⟨"orai", 7⟩])]⟩ "zzz" "orai" rfl

/-! ### C9: default account resolution (main.rs) -/

/-- main.rs `DEFAULT_SENDER_ADDR`. -/
def DEFAULT_SENDER_ADDR : String := "fake_sender_addr"

/-- main.rs `DEFAULT_SENDER_BALANCE`. -/
def DEFAULT_SENDER_BALANCE : Nat := 10000000000000000

/-- engine.rs `DENOM`. -/
def DENOM : String := "orai"

/-- Lexicographic comparison of two character lists by code point, the
order Rust's `String::cmp` induces (UTF-8 byte order coincides with code
point order). -/
def charListLe : List Char → List Char → Bool
  | [], _ => true
  | _ :: _, [] => false
  | a :: as, b :: bs =>
    if a.toNat < b.toNat then true
    else if b.toNat < a.toNat then false
    else charListLe as bs

/-- `String::cmp` as a boolean less-or-equal. -/
def strLe (a b : String) : Bool := charListLe a.data b.data

/-- Stable insertion step of the sort by sender address. -/
def insertBySender (a : MessageInfo) : List MessageInfo → List MessageInfo
  | [] => [a]
  | b :: rest => if strLe a.sender b.sender then a :: b :: rest else b :: insertBySender a rest

/-- Rust's stable `sort_by(|a, b| a.sender.cmp(&b.sender))`, modelled as a
stable insertion sort ascending by sender. -/
def sortBySender : List MessageInfo → List MessageInfo
  | [] => []
  | a :: rest => insertBySender a (sortBySender rest)

lemma mem_insertBySender {x a : MessageInfo} {l : List MessageInfo} :
    x ∈ insertBySender a l ↔ x = a ∨ x ∈ l := by
  induction l with
  | nil => simp [insertBySender]
  | cons b rest ih =>
    by_cases h : strLe a.sender b.sender = true
    · simp [insertBySender, h]
    · simp [insertBySender, h, ih]
      tauto

lemma mem_sortBySender {x : MessageInfo} {l : List MessageInfo} :
    x ∈ sortBySender l ↔ x ∈ l := by
  induction l with
  | nil => simp [sortBySender]
  | cons a rest ih => simp [sortBySender, mem_insertBySender, ih]

/-- main.rs `prepare_command_line`, account table setup: push the built-in
default account, then one account per configured (address, amount) balance
(a zero amount yields no funds), and sort the table by sender address. -/
def prepareAccounts (balances : List (String × Nat)) : List MessageInfo :=
  sortBySender
    (⟨DEFAULT_SENDER_ADDR, [⟨DENOM, DEFAULT_SENDER_BALANCE⟩]⟩ ::
      balances.map (fun b => ⟨b.1, if b.2 == 0 then [] else [⟨DENOM, b.2⟩]⟩))

/-- main.rs `call_engine`, account resolution: an absent or empty account
parameter falls back to `DEFAULT_SENDER_ADDR`; the resulting address is then
looked up in the account table, `NoAccountFound` otherwise. -/
def resolve_account (accounts : List MessageInfo) (account : Option String) :
    Except String MessageInfo :=
  let addr0 := account.getD ""
  let addr := if addr0.isEmpty then DEFAULT_SENDER_ADDR else addr0
  match accounts.find? (fun x => x.sender == addr) with
  | some info => Except.ok info
  | none => Except.error ("No account found for " ++ addr)

/-- Counterexample to C9 as stated: with the single configured balance
("aaa", 5), the lexicographically first configured address is "aaa" (it even
heads the sorted account table), yet a call without an explicit account
resolves to the built-in "fake_sender_addr". -/
theorem default_account_counterexample :
    ((prepareAccounts [("aaa", 5)]).map MessageInfo.sender) = ["aaa", "fake_sender_addr"] ∧
    (resolve_account (prepareAccounts [("aaa", 5)]) none).map MessageInfo.sender
      = Except.ok "fake_sender_addr" ∧
    "fake_sender_addr" ≠ "aaa" :=
  ⟨rfl, rfl, by decide⟩

/-- `resolve_account` with no (or an empty) explicit account looks up the
built-in default address. -/
lemma resolve_account_default (accounts : List MessageInfo) (account : Option String)
    (h : account = none ∨ account = some "") :
    resolve_account accounts account
      = (match accounts.find? (fun x => x.sender == DEFAULT_SENDER_ADDR) with
         | some info => Except.ok info
         | none => Except.error ("No account found for " ++ DEFAULT_SENDER_ADDR)) := by
  rcases h with h | h <;> subst h <;> rfl

/-- C9 (amended): for every configured balance list, a lifecycle call made
without an explicit account (or with an empty one) always uses the built-in
default account "fake_sender_addr" as sender — not the lexicographically
first configured address (the two coincide only when no configured address
sorts before the built-in one). -/
theorem default_account_amended (balances : List (String × Nat)) (account : Option String)
    (h : account = none ∨ account = some "") :
    (resolve_account (prepareAccounts balances) account).map MessageInfo.sender
      = Except.ok DEFAULT_SENDER_ADDR := by
  have hmem : (⟨DEFAULT_SENDER_ADDR, [⟨DENOM, DEFAULT_SENDER_BALANCE⟩]⟩ : MessageInfo)
      ∈ prepareAccounts balances := by
    unfold prepareAccounts
    rw [mem_sortBySender]
    exact List.mem_cons_self _ _
  have hsome : ((prepareAccounts balances).find?
      (fun x => x.sender == DEFAULT_SENDER_ADDR)).isSome := by
    rw [List.find?_isSome]
    exact ⟨_, hmem, by simp⟩
  rw [resolve_account_default _ _ h]
  cases hf : (prepareAccounts balances).find? (fun x => x.sender == DEFAULT_SENDER_ADDR) with
  | none =>
    rw [hf] at hsome
    simp at hsome
  | some info =>
    have hp : (info.sender == DEFAULT_SENDER_ADDR) = true :=
      List.find?_some (p := fun x : MessageInfo => x.sender == DEFAULT_SENDER_ADDR) hf
    have hsend : info.sender = DEFAULT_SENDER_ADDR := by simpa using hp
    simp [Except.map, hsend]

/-- Witness for the amended C9 at the concrete balance list of the
counterexample. -/
theorem default_account_amended_witness :
    (resolve_account (prepareAccounts [("aaa", 5)]) none).map MessageInfo.sender
      = Except.ok DEFAULT_SENDER_ADDR :=
  default_account_amended [("aaa", 5)] none (Or.inl rfl)

end CwSimulate
